import Mathlib

/-!
Shallow embedding of `src/libkernelflinger/storage.c`: the boot-device
cache, the PCI storage scan (`identify_boot_device`), its helpers
(`identify_storage`, `valid_storage`, `is_boot_device`), the exposed
operations (`get_boot_device`, `storage_set_boot_device`,
`storage_check_logical_unit`, `storage_erase_blocks`) and the block
pattern writer `fill_with`.

External collaborators (UEFI boot services, the per-technology storage
descriptors, `get_pci_device_path`) are modelled as data: a `Device`
records whether `DevicePathFromHandle` succeeds on its handle, the
PCI node `get_pci_device_path` extracts from its path, and which
technology `probe` functions return true on that path.  The global
mutable state of the C file is the explicit `BootState`, threaded
through every operation.  `EFI_LBA`/`UINTN` arithmetic in `fill_with`
is modelled on `Nat` with explicit reduction modulo `2 ^ 64`.
-/

namespace Storage

/-- `enum storage_type` without the `STORAGE_ALL` sentinel: the four
technology slots of `supported_storage`, in declaration order. -/
inductive StorageType : Type where
  | emmc
  | ufs
  | sdcard
  | sata
deriving DecidableEq, Repr

/-- The ordinal of a technology in `enum storage_type`; the C code
compares enum values directly (`boot_device_type > type`). -/
def StorageType.ord : StorageType → Nat
  | .emmc => 0
  | .ufs => 1
  | .sdcard => 2
  | .sata => 3

/-- The `filter` argument of `identify_storage`: either one technology
slot or the `STORAGE_ALL` sentinel. -/
inductive StorageFilter : Type where
  | only (t : StorageType)
  | all
deriving DecidableEq, Repr

/-- EFI status words as far as this file distinguishes them.
`EFI_ERROR` is true of everything except `EFI_SUCCESS`. -/
inductive EfiStatus : Type where
  | success
  | unsupported
  | invalidParameter
  | otherError (code : Nat)
deriving DecidableEq, Repr

/-- `EFI_ERROR(ret)`. -/
def EfiStatus.isError : EfiStatus → Bool
  | .success => false
  | _ => true

/-- The `Function`/`Device` pair of a `PCI_DEVICE_PATH` node.  The node
returned by `get_pci_device_path` always carries
`Header.Type = HARDWARE_DEVICE_PATH = 1`, so only these two fields vary. -/
structure PCIAddr where
  function : Nat
  device : Nat
deriving DecidableEq, Repr

/-- One enumerated Block-IO handle, together with everything the
external collaborators report about it: whether
`DevicePathFromHandle` yields a path, which PCI node
`get_pci_device_path` finds in that path (`none` = not PCI), and which
technologies' `probe` return true on the path.  The same structure
stands for a bare `EFI_DEVICE_PATH` argument (then `hasPath` is unused). -/
structure Device where
  hasPath : Bool
  pci : Option PCIAddr
  probes : StorageType → Bool

/-- The four static variables of storage.c:
`cur_storage`, `boot_device` (split into its `Header.Type`, `Function`
and `Device` fields), `boot_device_type` and `initialized`. -/
structure BootState where
  curStorage : Option StorageType
  bdHeaderType : Nat
  bdFunction : Nat
  bdDevice : Nat
  bootDeviceType : StorageType
  initialized : Bool
deriving DecidableEq, Repr

/-- The static initializers: `boot_device = { .Function = -1, .Device = -1 }`
(the `UINT8` fields hold 255, `Header.Type` is zero-initialized),
`cur_storage = NULL`, `boot_device_type` zero-initialized, `initialized = FALSE`. -/
def initState : BootState :=
  { curStorage := none, bdHeaderType := 0, bdFunction := 255, bdDevice := 255,
    bootDeviceType := .emmc, initialized := false }

/-- The external world one call runs against: the status of
`LocateHandleBuffer`, the enumerated handles, and the results of the
selected descriptor's `check_logical_unit` and `erase_blocks`. -/
structure Env where
  locateStatus : EfiStatus
  handles : List Device
  checkLU : StorageType → Device → Nat → EfiStatus
  eraseBlk : StorageType → Nat → Nat → EfiStatus

/-- The fixed `supported_storage` array in priority order; all four
extern descriptors are present (none is a NULL slot). -/
def storagePriority : List StorageType := [.emmc, .ufs, .sdcard, .sata]

/-- The filter test of `identify_storage`: `filter == st || filter == STORAGE_ALL`. -/
def filterAccepts (filter : StorageFilter) (st : StorageType) : Bool :=
  filter == .only st || filter == .all

/-- `identify_storage`: the first technology, in `supported_storage`
order, accepted by the filter whose `probe(device_path)` is true.  The
C function writes `*storage`/`*type` only on success; a `some` result
carries that technology (descriptor identity and slot coincide). -/
def identify_storage (device_path : Device) (filter : StorageFilter) : Option StorageType :=
  storagePriority.find? (fun st => filterAccepts filter st && device_path.probes st)

/-- The acceptance assignment of the scan loop:
`memcpy(&boot_device, pci, ...)` (the copied node has `Header.Type = 1`),
`boot_device_type = type`, `cur_storage = storage`. -/
def acceptDevice (s : BootState) (p : PCIAddr) (t : StorageType) : BootState :=
  { s with curStorage := some t, bdHeaderType := 1,
           bdFunction := p.function, bdDevice := p.device, bootDeviceType := t }

/-- The ambiguity assignment: `cur_storage = NULL; boot_device.Header.Type = 0`. -/
def clearDevice (s : BootState) : BootState :=
  { s with curStorage := none, bdHeaderType := 0 }

/-- One iteration of the scan loop of `identify_boot_device` on handle
`d`: `.ok s'` is `continue` (with the updated globals), `.error`
is the early `return EFI_UNSUPPORTED` on ambiguity. -/
def scanStep (filter : StorageFilter) (d : Device) (s : BootState) :
    Except (EfiStatus × BootState) BootState :=
  if !d.hasPath then .ok s
  else
    match d.pci with
    | none => .ok s
    | some p =>
      if s.bdFunction = p.function ∧ s.bdDevice = p.device then .ok s
      else
        match identify_storage d filter with
        | none => .ok s
        | some t =>
          if s.bdHeaderType = 0 ∨ t.ord < s.bootDeviceType.ord then
            .ok (acceptDevice s p t)
          else if s.bootDeviceType = t then .error (.unsupported, clearDevice s)
          else .ok s

/-- The scan loop over the handle buffer. -/
def scanLoop (filter : StorageFilter) : List Device → BootState → Except (EfiStatus × BootState) BootState
  | [], s => .ok s
  | d :: ds, s =>
    match scanStep filter d s with
    | .error e => .error e
    | .ok s' => scanLoop filter ds s'

/-- `identify_boot_device`: clear `cur_storage`, locate the Block-IO
handles (an enumeration failure propagates the status), reset only
`boot_device.Header.Type` to 0, run the scan loop, and finally fail
with `EFI_UNSUPPORTED` when no candidate was accepted. -/
def identify_boot_device (env : Env) (filter : StorageFilter) (s0 : BootState) :
    EfiStatus × BootState :=
  if env.locateStatus.isError then (env.locateStatus, { s0 with curStorage := none })
  else
    match scanLoop filter env.handles { s0 with curStorage := none, bdHeaderType := 0 } with
    | .error e => e
    | .ok s' => if s'.curStorage = none then (.unsupported, s') else (.success, s')

/-- `valid_storage`: on the first call set `initialized = TRUE` and
report whether a fresh `identify_boot_device(STORAGE_ALL)` succeeds;
afterwards report `boot_device.Header.Type && cur_storage`. -/
def valid_storage (env : Env) (s : BootState) : Bool × BootState :=
  if s.initialized = false then
    let r := identify_boot_device env .all { s with initialized := true }
    (!r.1.isError, r.2)
  else ((s.bdHeaderType != 0) && s.curStorage.isSome, s)

/-- `is_boot_device(p)`: false while `boot_device.Header.Type == 0`,
otherwise true iff `p` has a PCI node matching the cached `Function`
and `Device` fields. -/
def is_boot_device (s : BootState) (p : Device) : Bool :=
  if s.bdHeaderType = 0 then false
  else
    match p.pci with
    | none => false
    | some a => a.function == s.bdFunction && a.device == s.bdDevice

/-- `storage_check_logical_unit`: `valid_storage`, then `is_boot_device`,
then delegate to `cur_storage->check_logical_unit`.  The `none` arm of
the match is unreachable (a true `valid_storage` forces `cur_storage`
non-NULL; see `valid_storage_true_curStorage`). -/
def storage_check_logical_unit (env : Env) (p : Device) (log_unit : Nat) (s : BootState) :
    EfiStatus × BootState :=
  let v := valid_storage env s
  if !v.1 then (.unsupported, v.2)
  else if !is_boot_device v.2 p then (.unsupported, v.2)
  else
    match v.2.curStorage with
    | some t => (env.checkLU t p log_unit, v.2)
    | none => (.unsupported, v.2)

/-- `storage_erase_blocks`: `valid_storage`, then delegate to
`cur_storage->erase_blocks` (same unreachable-`none` remark). -/
def storage_erase_blocks (env : Env) (startLba endLba : Nat) (s : BootState) :
    EfiStatus × BootState :=
  let v := valid_storage env s
  if !v.1 then (.unsupported, v.2)
  else
    match v.2.curStorage with
    | some t => (env.eraseBlk t startLba endLba, v.2)
    | none => (.unsupported, v.2)

/-- `storage_set_boot_device`: fail without touching the globals when
the handle has no device path, no PCI node, or `identify_storage`
recognizes nothing; otherwise commit descriptor, type, `initialized = TRUE`
and the PCI address. -/
def storage_set_boot_device (device : Device) (s : BootState) : EfiStatus × BootState :=
  if !device.hasPath then (.unsupported, s)
  else
    match device.pci with
    | none => (.unsupported, s)
    | some pci =>
      match identify_storage device .all with
      | none => (.unsupported, s)
      | some t =>
        (.success,
         { curStorage := some t, bdHeaderType := 1, bdFunction := pci.function,
           bdDevice := pci.device, bootDeviceType := t, initialized := true })

/-- The return value of `get_boot_device`:
`boot_device.Header.Type == 0 ? NULL : &boot_device`. -/
def cachedAddr (s : BootState) : Option PCIAddr :=
  if s.bdHeaderType = 0 then none
  else some { function := s.bdFunction, device := s.bdDevice }

/-- `get_boot_device`: when `initialized` is still false run
`identify_boot_device(STORAGE_ALL)` (its failure is only logged), then
return the cached address.  Note that the function never assigns
`initialized`. -/
def get_boot_device (env : Env) (s : BootState) : Option PCIAddr × BootState :=
  if s.initialized = false then
    let r := identify_boot_device env .all s
    (cachedAddr r.2, r.2)
  else (cachedAddr s, s)

/-- Word size of `EFI_LBA`/`UINT64`/`UINTN` arithmetic. -/
def W64 : Nat := 2 ^ 64

/-- One `WriteBlocks` call of `fill_with`, recorded as its starting LBA
and its length in blocks (the byte length passed down is
`BlockSize * size`). -/
structure WriteCall where
  lba : Nat
  size : Nat
deriving DecidableEq, Repr

/-- The loop of `fill_with`, fuel-indexed: `none` means the loop did
not finish within `fuel` iterations.  Each iteration with `lba <= end`
computes `size` (`end - lba + 1` when `lba + pattern_blocks > end + 1`,
else `pattern_blocks`, all on `UINT64`), issues the write, stops on a
write error, and advances `lba += pattern_blocks` modulo `2 ^ 64`. -/
def fillLoop (wr : Nat → EfiStatus) (endLba pattern_blocks : Nat) :
    Nat → Nat → Option (EfiStatus × List WriteCall)
  | 0, _ => none
  | fuel + 1, lba =>
    if lba ≤ endLba then
      let size := if (lba + pattern_blocks) % W64 > (endLba + 1) % W64
                  then (endLba - lba + 1) % W64
                  else pattern_blocks
      let ret := wr lba
      if ret.isError then some (ret, [⟨lba, size⟩])
      else
        match fillLoop wr endLba pattern_blocks fuel ((lba + pattern_blocks) % W64) with
        | none => none
        | some (st, ws) => some (st, ⟨lba, size⟩ :: ws)
    else some (.success, [])

/-- `fill_with`: reject `end <= start` with `EFI_INVALID_PARAMETER`
before any write, else run the loop.  `wr lba` is the status
`bio->WriteBlocks` returns for the write starting at `lba`; the write
list records every issued call, a failing one included. -/
def fill_with (wr : Nat → EfiStatus) (startLba endLba pattern_blocks fuel : Nat) :
    Option (EfiStatus × List WriteCall) :=
  if endLba ≤ startLba then some (.invalidParameter, [])
  else fillLoop wr endLba pattern_blocks fuel startLba

/-! Auxiliary notions used to state the claims. -/

/-- The state a scan-loop iteration ends in, whether it continued
(`.ok`) or returned early (`.error`). -/
def exState : Except (EfiStatus × BootState) BootState → BootState
  | .error e => e.2
  | .ok s => s

/-- The spec's cache invariant: the descriptor is set iff the cached
address is non-sentinel (`Header.Type` not zero). -/
def descrAddrInv (s : BootState) : Prop :=
  s.curStorage.isSome = true ↔ s.bdHeaderType ≠ 0

/-- The spec's `is_valid()`: `initialized`, non-sentinel address, and a
descriptor. -/
def validCache (s : BootState) : Prop :=
  s.initialized = true ∧ s.bdHeaderType ≠ 0 ∧ s.curStorage.isSome = true

/-- The bus address under which the scan loop sees a handle: `none`
when `DevicePathFromHandle` or `get_pci_device_path` fails on it. -/
def devAddr (d : Device) : Option PCIAddr :=
  if d.hasPath then d.pci else none

/-- The handle reaches `identify_storage` during a scan and is
recognized there as technology `T`. -/
def identifiesAs (filter : StorageFilter) (T : StorageType) (d : Device) : Bool :=
  d.hasPath && d.pci.isSome && (identify_storage d filter == some T)

/-- `T`'s priority is at least as high as that of an (optional)
recognition result: vacuously true for `none`. -/
def ordAtLeast (T : StorageType) : Option StorageType → Bool
  | none => true
  | some t => decide (T.ord ≤ t.ord)

/-- The write pattern the spec describes for `fill_with`: `k` chunks
starting at `lba`, stepping by `pb` blocks, the chunk size clamped to
the blocks remaining up to `endLba` inclusive. -/
def tileFrom (endLba pb : Nat) : Nat → Nat → List WriteCall
  | _, 0 => []
  | lba, k + 1 => ⟨lba, min pb (endLba + 1 - lba)⟩ :: tileFrom endLba pb (lba + pb) k

/-! Concrete devices and environments for counterexamples and witnesses. -/

/-- An eMMC controller at PCI function 1, device 2. -/
def demmc : Device :=
  { hasPath := true, pci := some ⟨1, 2⟩, probes := fun st => st == .emmc }

/-- A SATA controller at PCI function 3, device 4. -/
def dsata1 : Device :=
  { hasPath := true, pci := some ⟨3, 4⟩, probes := fun st => st == .sata }

/-- A second, distinct SATA controller at PCI function 5, device 6. -/
def dsata2 : Device :=
  { hasPath := true, pci := some ⟨5, 6⟩, probes := fun st => st == .sata }

/-- A UFS controller at PCI function 7, device 8. -/
def dufs : Device :=
  { hasPath := true, pci := some ⟨7, 8⟩, probes := fun st => st == .ufs }

/-- An environment whose enumeration yields exactly the one eMMC
controller. -/
def envOne : Env :=
  { locateStatus := .success, handles := [demmc],
    checkLU := fun _ _ _ => .success, eraseBlk := fun _ _ _ => .success }

/-- An environment holding one eMMC controller followed by two distinct
SATA controllers. -/
def envDupMasked : Env :=
  { locateStatus := .success, handles := [demmc, dsata1, dsata2],
    checkLU := fun _ _ _ => .success, eraseBlk := fun _ _ _ => .success }

/-- An environment holding only the two distinct SATA controllers. -/
def envDup : Env :=
  { locateStatus := .success, handles := [dsata1, dsata2],
    checkLU := fun _ _ _ => .success, eraseBlk := fun _ _ _ => .success }

/-- Enumerations holding the eMMC and first SATA controller, in the
two possible orders. -/
def envPair1 : Env :=
  { locateStatus := .success, handles := [demmc, dsata1],
    checkLU := fun _ _ _ => .success, eraseBlk := fun _ _ _ => .success }

/-- The same pair enumerated SATA first. -/
def envPair2 : Env :=
  { locateStatus := .success, handles := [dsata1, demmc],
    checkLU := fun _ _ _ => .success, eraseBlk := fun _ _ _ => .success }

/-- An environment whose `LocateHandleBuffer` fails. -/
def envLocateFail : Env :=
  { locateStatus := .otherError 7, handles := [],
    checkLU := fun _ _ _ => .success, eraseBlk := fun _ _ _ => .success }


/-- Handles without a device path are skipped. -/
lemma scanStep_no_path {filter : StorageFilter} {d : Device} (s : BootState)
    (h : d.hasPath = false) : scanStep filter d s = .ok s := by
  unfold scanStep; simp [h]

/-- Handles whose path has no PCI node are skipped. -/
lemma scanStep_no_pci {filter : StorageFilter} {d : Device} (s : BootState)
    (hp : d.hasPath = true) (h : d.pci = none) : scanStep filter d s = .ok s := by
  unfold scanStep; simp [h, hp]

/-- A handle whose address matches the current `Function`/`Device`
fields is skipped. -/
lemma scanStep_addr_skip {filter : StorageFilter} {d : Device} {p : PCIAddr} (s : BootState)
    (hp : d.pci = some p)
    (h : s.bdFunction = p.function ∧ s.bdDevice = p.device) : scanStep filter d s = .ok s := by
  unfold scanStep
  cases hpath : d.hasPath with
  | false => simp [hpath]
  | true => simp [hpath, hp, h]

/-- A handle `identify_storage` does not recognize is skipped. -/
lemma scanStep_no_id {filter : StorageFilter} {d : Device} {p : PCIAddr} (s : BootState)
    (hpath : d.hasPath = true) (hp : d.pci = some p)
    (hna : ¬(s.bdFunction = p.function ∧ s.bdDevice = p.device))
    (hid : identify_storage d filter = none) : scanStep filter d s = .ok s := by
  unfold scanStep; simp [hpath, hp, hna, hid]

/-- Acceptance: nothing accepted yet, or the new type has strictly
higher priority. -/
lemma scanStep_accept {filter : StorageFilter} {d : Device} {p : PCIAddr} {t : StorageType}
    (s : BootState)
    (hpath : d.hasPath = true) (hp : d.pci = some p)
    (hna : ¬(s.bdFunction = p.function ∧ s.bdDevice = p.device))
    (hid : identify_storage d filter = some t)
    (hcond : s.bdHeaderType = 0 ∨ t.ord < s.bootDeviceType.ord) :
    scanStep filter d s = .ok (acceptDevice s p t) := by
  unfold scanStep; simp [hpath, hp, hna, hid, hcond]

/-- Ambiguity: a second device of the accepted type aborts the scan. -/
lemma scanStep_ambiguous {filter : StorageFilter} {d : Device} {p : PCIAddr} {t : StorageType}
    (s : BootState)
    (hpath : d.hasPath = true) (hp : d.pci = some p)
    (hna : ¬(s.bdFunction = p.function ∧ s.bdDevice = p.device))
    (hid : identify_storage d filter = some t)
    (hncond : ¬(s.bdHeaderType = 0 ∨ t.ord < s.bootDeviceType.ord))
    (heq : s.bootDeviceType = t) :
    scanStep filter d s = .error (.unsupported, clearDevice s) := by
  have h1 : ¬s.bdHeaderType = 0 := fun h => hncond (Or.inl h)
  have h2 : ¬t.ord < s.bootDeviceType.ord := fun h => hncond (Or.inr h)
  unfold scanStep; simp [hpath, hp, hna, hid, h1, h2, heq]

/-- A recognized device of strictly lower priority than the accepted
one is ignored. -/
lemma scanStep_lower {filter : StorageFilter} {d : Device} {p : PCIAddr} {t : StorageType}
    (s : BootState)
    (hpath : d.hasPath = true) (hp : d.pci = some p)
    (hna : ¬(s.bdFunction = p.function ∧ s.bdDevice = p.device))
    (hid : identify_storage d filter = some t)
    (hncond : ¬(s.bdHeaderType = 0 ∨ t.ord < s.bootDeviceType.ord))
    (hne : s.bootDeviceType ≠ t) :
    scanStep filter d s = .ok s := by
  have h1 : ¬s.bdHeaderType = 0 := fun h => hncond (Or.inl h)
  have h2 : ¬t.ord < s.bootDeviceType.ord := fun h => hncond (Or.inr h)
  unfold scanStep; simp [hpath, hp, hna, hid, h1, h2, hne]

/-- Every iteration either continues with `s` itself, accepts a
recognized device, or aborts on ambiguity. -/
lemma scanStep_cases (filter : StorageFilter) (d : Device) (s : BootState) :
    scanStep filter d s = .ok s ∨
    (∃ p t, d.pci = some p ∧ identify_storage d filter = some t ∧
      scanStep filter d s = .ok (acceptDevice s p t)) ∨
    scanStep filter d s = .error (.unsupported, clearDevice s) := by
  cases hpath : d.hasPath with
  | false => exact Or.inl (scanStep_no_path s hpath)
  | true =>
    cases hp : d.pci with
    | none => exact Or.inl (scanStep_no_pci s hpath hp)
    | some p =>
      by_cases hna : s.bdFunction = p.function ∧ s.bdDevice = p.device
      · exact Or.inl (scanStep_addr_skip s hp hna)
      · cases hid : identify_storage d filter with
        | none => exact Or.inl (scanStep_no_id s hpath hp hna hid)
        | some t =>
          by_cases hcond : s.bdHeaderType = 0 ∨ t.ord < s.bootDeviceType.ord
          · exact Or.inr (Or.inl ⟨p, t, rfl, rfl, scanStep_accept s hpath hp hna hid hcond⟩)
          · by_cases heq : s.bootDeviceType = t
            · exact Or.inr (Or.inr (scanStep_ambiguous s hpath hp hna hid hcond heq))
            · exact Or.inl (scanStep_lower s hpath hp hna hid hcond heq)


/-- No scan-loop iteration touches `initialized`. -/
lemma scanStep_initialized (filter : StorageFilter) (d : Device) (s : BootState) :
    (exState (scanStep filter d s)).initialized = s.initialized := by
  rcases scanStep_cases filter d s with h | ⟨p, t, _, _, h⟩ | h <;>
    simp [h, exState, acceptDevice, clearDevice]

/-- The scan loop never touches `initialized`. -/
lemma scanLoop_initialized (filter : StorageFilter) :
    ∀ (ds : List Device) (s : BootState),
      (exState (scanLoop filter ds s)).initialized = s.initialized := by
  intro ds
  induction ds with
  | nil => intro s; rfl
  | cons d ds ih =>
    intro s
    have h := scanStep_initialized filter d s
    unfold scanLoop
    cases hs : scanStep filter d s with
    | error e => rw [hs] at h; simpa [exState] using h
    | ok s' =>
      rw [hs] at h; simp only [exState] at h
      simpa [h] using ih s'

/-- `identify_boot_device` never assigns `initialized`. -/
lemma identify_initialized (env : Env) (filter : StorageFilter) (s : BootState) :
    ((identify_boot_device env filter s).2).initialized = s.initialized := by
  unfold identify_boot_device
  split
  · rfl
  · have h := scanLoop_initialized filter env.handles
      { s with curStorage := none, bdHeaderType := 0 }
    cases hs : scanLoop filter env.handles { s with curStorage := none, bdHeaderType := 0 } with
    | error e => rw [hs] at h; simpa [exState] using h
    | ok s' =>
      rw [hs] at h; simp only [exState] at h
      simp only []
      split <;> simpa using h

/-- One iteration preserves the descriptor/address correspondence, and
the early-return state has both cleared. -/
lemma scanStep_inv (filter : StorageFilter) (d : Device) {s : BootState}
    (h : descrAddrInv s) :
    (∀ s', scanStep filter d s = .ok s' → descrAddrInv s') ∧
    (∀ e, scanStep filter d s = .error e →
      e.1 = .unsupported ∧ e.2.curStorage = none ∧ e.2.bdHeaderType = 0) := by
  rcases scanStep_cases filter d s with hc | ⟨p, t, _, _, hc⟩ | hc
  · refine ⟨fun s' hx => ?_, fun e hx => ?_⟩ <;> rw [hc] at hx
    · cases hx; exact h
    · cases hx
  · refine ⟨fun s' hx => ?_, fun e hx => ?_⟩ <;> rw [hc] at hx
    · cases hx; simp [descrAddrInv, acceptDevice]
    · cases hx
  · refine ⟨fun s' hx => ?_, fun e hx => ?_⟩ <;> rw [hc] at hx
    · cases hx
    · cases hx; exact ⟨rfl, rfl, rfl⟩


/-- The scan loop preserves the descriptor/address correspondence, and
an early return carries a fully cleared candidate. -/
lemma scanLoop_inv (filter : StorageFilter) :
    ∀ (ds : List Device) {s : BootState}, descrAddrInv s →
      (∀ s', scanLoop filter ds s = .ok s' → descrAddrInv s') ∧
      (∀ e, scanLoop filter ds s = .error e →
        e.1 = .unsupported ∧ e.2.curStorage = none ∧ e.2.bdHeaderType = 0) := by
  intro ds
  induction ds with
  | nil =>
    intro s h
    refine ⟨fun s' hx => ?_, fun e hx => ?_⟩ <;> cases hx
    exact h
  | cons d ds ih =>
    intro s h
    have hstep := scanStep_inv filter d h
    refine ⟨fun s' hx => ?_, fun e hx => ?_⟩ <;> unfold scanLoop at hx
    · cases hs : scanStep filter d s with
      | error e0 => rw [hs] at hx; cases hx
      | ok s0 =>
        rw [hs] at hx
        exact (ih (hstep.1 s0 hs)).1 s' hx
    · cases hs : scanStep filter d s with
      | error e0 =>
        rw [hs] at hx; cases hx
        exact hstep.2 e hs
      | ok s0 =>
        rw [hs] at hx
        exact (ih (hstep.1 s0 hs)).2 e hx

/-- After a scan whose enumeration succeeded, the descriptor is set iff
the cached address is non-sentinel. -/
lemma identify_inv (env : Env) (filter : StorageFilter) (s : BootState)
    (henv : env.locateStatus.isError = false) :
    descrAddrInv (identify_boot_device env filter s).2 := by
  unfold identify_boot_device
  rw [henv]
  simp only [Bool.false_eq_true, if_false]
  have h0 : descrAddrInv { s with curStorage := none, bdHeaderType := 0 } := by
    simp [descrAddrInv]
  have h := scanLoop_inv filter env.handles h0
  cases hs : scanLoop filter env.handles { s with curStorage := none, bdHeaderType := 0 } with
  | error e =>
    obtain ⟨-, hc, hh⟩ := h.2 e hs
    simp [descrAddrInv, hc, hh]
  | ok s' =>
    have hinv := h.1 s' hs
    by_cases hc : s'.curStorage = none <;> simp [hc, hinv]


/-- A status is an `EFI_ERROR` exactly when it is not `EFI_SUCCESS`. -/
lemma EfiStatus.isError_iff (st : EfiStatus) : st.isError = true ↔ st ≠ .success := by
  cases st <;> simp [isError]

/-- Outcome dichotomy of a scan: success with a committed candidate
(descriptor set, address non-sentinel), or an error status with no
descriptor selected. -/
lemma identify_cases (env : Env) (filter : StorageFilter) (s : BootState) :
    ((identify_boot_device env filter s).1 = .success ∧
      ((identify_boot_device env filter s).2).curStorage.isSome = true ∧
      ((identify_boot_device env filter s).2).bdHeaderType ≠ 0) ∨
    (((identify_boot_device env filter s).1).isError = true ∧
      ((identify_boot_device env filter s).2).curStorage = none) := by
  unfold identify_boot_device
  by_cases hloc : env.locateStatus.isError = true
  · refine Or.inr ⟨?_, ?_⟩ <;> simp [hloc]
  · have hf : env.locateStatus.isError = false := by simpa using hloc
    simp only [hf, Bool.false_eq_true, if_false]
    have h0 : descrAddrInv { s with curStorage := none, bdHeaderType := 0 } := by
      simp [descrAddrInv]
    have h := scanLoop_inv filter env.handles h0
    cases hs : scanLoop filter env.handles { s with curStorage := none, bdHeaderType := 0 } with
    | error e =>
      obtain ⟨h1, h2, -⟩ := h.2 e hs
      exact Or.inr ⟨by rw [h1]; rfl, h2⟩
    | ok s' =>
      by_cases hc : s'.curStorage = none
      · exact Or.inr ⟨by simp [hc, EfiStatus.isError], by simp [hc]⟩
      · have hinv := h.1 s' hs
        have hsome : s'.curStorage.isSome = true := Option.ne_none_iff_isSome.mp hc
        exact Or.inl ⟨by simp [hc], by simp [hc, hsome], by simp [hc]; exact hinv.mp hsome⟩


/-- Unfolding equation of the scan loop on a non-empty buffer. -/
lemma scanLoop_cons (filter : StorageFilter) (d : Device) (ds : List Device) (s : BootState) :
    scanLoop filter (d :: ds) s =
      (match scanStep filter d s with
        | .error e => .error e
        | .ok s' => scanLoop filter ds s') := rfl

/-- No branch of an iteration reads `initialized`: running it on a
state with `initialized` overwritten commutes with the overwrite. -/
lemma scanStep_initialized_set (filter : StorageFilter) (d : Device) (s : BootState) (b : Bool) :
    scanStep filter d { s with initialized := b } =
      (match scanStep filter d s with
        | .ok s' => .ok { s' with initialized := b }
        | .error (st, s') => .error (st, { s' with initialized := b })) := by
  cases hpath : d.hasPath with
  | false =>
    rw [scanStep_no_path s hpath]
    exact scanStep_no_path _ hpath
  | true =>
    cases hp : d.pci with
    | none =>
      rw [scanStep_no_pci s hpath hp]
      exact scanStep_no_pci _ hpath hp
    | some p =>
      by_cases hna : s.bdFunction = p.function ∧ s.bdDevice = p.device
      · rw [scanStep_addr_skip s hp hna]
        exact scanStep_addr_skip _ hp hna
      · cases hid : identify_storage d filter with
        | none =>
          rw [scanStep_no_id s hpath hp hna hid]
          exact scanStep_no_id _ hpath hp hna hid
        | some t =>
          by_cases hcond : s.bdHeaderType = 0 ∨ t.ord < s.bootDeviceType.ord
          · rw [scanStep_accept s hpath hp hna hid hcond]
            exact scanStep_accept _ hpath hp hna hid hcond
          · by_cases hamb : s.bootDeviceType = t
            · rw [scanStep_ambiguous s hpath hp hna hid hcond hamb]
              exact scanStep_ambiguous _ hpath hp hna hid hcond hamb
            · rw [scanStep_lower s hpath hp hna hid hcond hamb]
              exact scanStep_lower _ hpath hp hna hid hcond hamb

/-- The scan loop commutes with overwriting `initialized`. -/
lemma scanLoop_initialized_set (filter : StorageFilter) :
    ∀ (ds : List Device) (s : BootState) (b : Bool),
      scanLoop filter ds { s with initialized := b } =
        (match scanLoop filter ds s with
          | .ok s' => .ok { s' with initialized := b }
          | .error (st, s') => .error (st, { s' with initialized := b })) := by
  intro ds
  induction ds with
  | nil => intro s b; rfl
  | cons d ds ih =>
    intro s b
    rw [scanLoop_cons, scanLoop_cons, scanStep_initialized_set]
    cases hs : scanStep filter d s with
    | error e => cases e; rfl
    | ok s' => exact ih s' b

/-- `identify_boot_device` commutes with overwriting `initialized`. -/
lemma identify_initialized_set (env : Env) (filter : StorageFilter) (s : BootState) (b : Bool) :
    identify_boot_device env filter { s with initialized := b } =
      ((identify_boot_device env filter s).1,
       { (identify_boot_device env filter s).2 with initialized := b }) := by
  have hcomm := scanLoop_initialized_set filter env.handles
    { s with curStorage := none, bdHeaderType := 0 } b
  unfold identify_boot_device
  by_cases hloc : env.locateStatus.isError = true
  · simp [hloc]
  · have hf : env.locateStatus.isError = false := by simpa using hloc
    simp only [hf, Bool.false_eq_true, if_false]
    rw [hcomm]
    cases hs : scanLoop filter env.handles { s with curStorage := none, bdHeaderType := 0 } with
    | error e => cases e; rfl
    | ok s' => by_cases hc : s'.curStorage = none <;> simp [hc]


/-! Lemmas about the `fill_with` loop. -/

/-- Within the no-overflow regime, with every write succeeding, the
loop from `lba` produces exactly the clamped tiling of `[lba, endLba]`. -/
lemma fillLoop_tile (wr : Nat → EfiStatus) (endLba pb : Nat)
    (hwr : ∀ l, wr l = .success) (hpb : 1 ≤ pb) (hW : endLba + pb < W64) :
    ∀ (fuel lba : Nat), lba ≤ endLba → (endLba - lba) / pb + 2 ≤ fuel →
      fillLoop wr endLba pb fuel lba =
        some (.success, tileFrom endLba pb lba ((endLba - lba) / pb + 1)) := by
  intro fuel
  induction fuel with
  | zero => intro lba _ hf; exact (Nat.not_succ_le_zero _ hf).elim
  | succ n ih =>
    intro lba hle hf
    have hlba : lba + pb < W64 := lt_of_le_of_lt (Nat.add_le_add_right hle pb) hW
    have hend : endLba + 1 < W64 := lt_of_le_of_lt (Nat.add_le_add_left hpb endLba) hW
    have hm1 : (lba + pb) % W64 = lba + pb := Nat.mod_eq_of_lt hlba
    have hm2 : (endLba + 1) % W64 = endLba + 1 := Nat.mod_eq_of_lt hend
    have hm3 : (endLba - lba + 1) % W64 = endLba - lba + 1 :=
      Nat.mod_eq_of_lt (lt_of_le_of_lt (by omega) hend)
    have hsize : (if (lba + pb) % W64 > (endLba + 1) % W64
        then (endLba - lba + 1) % W64 else pb) = min pb (endLba + 1 - lba) := by
      rw [hm1, hm2, hm3]
      by_cases hgt : lba + pb > endLba + 1
      · rw [if_pos hgt]; omega
      · rw [if_neg hgt]; omega
    unfold fillLoop
    rw [if_pos hle, hsize, hwr lba]
    simp only [EfiStatus.isError, Bool.false_eq_true, if_false]
    by_cases hnext : lba + pb ≤ endLba
    · have hdiv : (endLba - lba) / pb = (endLba - (lba + pb)) / pb + 1 := by
        have h1 : pb ≤ endLba - lba := by omega
        have h2 : endLba - (lba + pb) = endLba - lba - pb := by omega
        rw [h2, ← Nat.div_eq_sub_div (by omega) h1]
      rw [hm1, ih (lba + pb) hnext (by omega)]
      rw [hdiv]
      show some (_, tileFrom endLba pb lba ((endLba - (lba + pb)) / pb + 1 + 1)) = _
      rw [tileFrom]
    · have hstop : endLba < lba + pb := by omega
      have hdiv0 : (endLba - lba) / pb = 0 := Nat.div_eq_of_lt (by omega)
      obtain ⟨m, hm⟩ : ∃ m, n = m + 1 := ⟨n - 1, by omega⟩
      rw [hm1, hm]
      show (match fillLoop wr endLba pb (m + 1) (lba + pb) with
            | none => none
            | some (st, ws) => some (st, (⟨lba, min pb (endLba + 1 - lba)⟩ : WriteCall) :: ws)) = _
      unfold fillLoop
      rw [if_neg (by omega)]
      rw [hdiv0]
      rfl


/-- The tiling has exactly as many chunks as requested. -/
lemma tileFrom_length (endLba pb : Nat) :
    ∀ (k lba : Nat), (tileFrom endLba pb lba k).length = k := by
  intro k
  induction k with
  | zero => intro lba; rfl
  | succ n ih => intro lba; unfold tileFrom; simp [ih]

/-- The `i`-th chunk of the tiling starts at `lba + i * pb` and is
clamped to the blocks remaining. -/
lemma tileFrom_get (endLba pb : Nat) :
    ∀ (k lba i : Nat),
      (tileFrom endLba pb lba k)[i]? =
        if i < k then some ⟨lba + i * pb, min pb (endLba + 1 - (lba + i * pb))⟩ else none := by
  intro k
  induction k with
  | zero => intro lba i; simp [tileFrom]
  | succ n ih =>
    intro lba i
    unfold tileFrom
    cases i with
    | zero => simp
    | succ j =>
      rw [List.getElem?_cons_succ, ih (lba + pb) j]
      have harith : lba + pb + j * pb = lba + (j + 1) * pb := by ring
      by_cases hj : j < n
      · rw [if_pos hj, if_pos (by omega), harith]
      · rw [if_neg hj, if_neg (by omega)]

/-- With `pb ≥ 1` and no `UINT64` wraparound the loop always finishes
within `(endLba - lba) / pb + 2` iterations, whatever the write
outcomes. -/
lemma fillLoop_isSome (wr : Nat → EfiStatus) (endLba pb : Nat)
    (hpb : 1 ≤ pb) (hW : endLba + pb < W64) :
    ∀ (fuel lba : Nat), (endLba - lba) / pb + 2 ≤ fuel →
      (fillLoop wr endLba pb fuel lba).isSome = true := by
  intro fuel
  induction fuel with
  | zero => intro lba hf; exact (Nat.not_succ_le_zero _ hf).elim
  | succ n ih =>
    intro lba hf
    by_cases hle : lba ≤ endLba
    · have hlba : lba + pb < W64 := lt_of_le_of_lt (Nat.add_le_add_right hle pb) hW
      have hm1 : (lba + pb) % W64 = lba + pb := Nat.mod_eq_of_lt hlba
      unfold fillLoop
      rw [if_pos hle]
      by_cases herr : (wr lba).isError = true
      · simp [herr]
      · simp only [herr, Bool.false_eq_true, if_false, hm1]
        by_cases hnext : lba + pb ≤ endLba
        · have hdiv : (endLba - lba) / pb = (endLba - (lba + pb)) / pb + 1 := by
            have h1 : pb ≤ endLba - lba := by omega
            have h2 : endLba - (lba + pb) = endLba - lba - pb := by omega
            rw [h2, ← Nat.div_eq_sub_div (by omega) h1]
          have hs := ih (lba + pb) (by omega)
          cases hcase : fillLoop wr endLba pb n (lba + pb) with
          | none => rw [hcase] at hs; cases hs
          | some r => cases r; simp [hcase]
        · have hn1 : 1 ≤ n := by
            have h2 : 2 ≤ n + 1 := le_trans (Nat.le_add_left 2 _) hf
            omega
          obtain ⟨m, hm⟩ : ∃ m, n = m + 1 := ⟨n - 1, by omega⟩
          rw [hm]
          cases hcase : fillLoop wr endLba pb (m + 1) (lba + pb) with
          | none =>
            have hguard : ¬(lba + pb ≤ endLba) := hnext
            unfold fillLoop at hcase
            rw [if_neg hguard] at hcase
            cases hcase
          | some r => cases r; simp [hcase]
    · unfold fillLoop
      rw [if_neg hle]
      rfl


/-- With `pattern_blocks = 0` and a successful write the loop never
advances: no amount of fuel finishes it. -/
lemma fillLoop_none_pb_zero (wr : Nat → EfiStatus) (endLba lba : Nat)
    (hle : lba ≤ endLba) (hlt : lba < W64) (hok : (wr lba).isError = false) :
    ∀ fuel, fillLoop wr endLba 0 fuel lba = none := by
  intro fuel
  induction fuel with
  | zero => rfl
  | succ n ih =>
    unfold fillLoop
    rw [if_pos hle]
    simp only [hok, Bool.false_eq_true, if_false]
    have hmod : (lba + 0) % W64 = lba := by
      rw [Nat.add_zero]; exact Nat.mod_eq_of_lt hlt
    rw [hmod, ih]

/-- With `end = 2 ^ 64 - 1` the guard `lba <= end` can never fail, so
the loop never finishes even with `pattern_blocks = 1`. -/
lemma fillLoop_none_wrap (wr : Nat → EfiStatus) (hwr : ∀ l, wr l = .success) :
    ∀ (fuel lba : Nat), lba < W64 → fillLoop wr (W64 - 1) 1 fuel lba = none := by
  intro fuel
  induction fuel with
  | zero => intro lba _; rfl
  | succ n ih =>
    intro lba hlt
    unfold fillLoop
    rw [if_pos (by omega), hwr lba]
    simp only [EfiStatus.isError, Bool.false_eq_true, if_false]
    rw [ih ((lba + 1) % W64) (Nat.mod_lt _ (by norm_num [W64]))]


/-- C8: for every device and every range with `end <= start`,
`fill_with` returns `EFI_INVALID_PARAMETER` and issues zero block
writes. -/
theorem fill_with_invalid_range (wr : Nat → EfiStatus) (startLba endLba pb fuel : Nat)
    (h : endLba ≤ startLba) :
    fill_with wr startLba endLba pb fuel = some (.invalidParameter, []) := by
  unfold fill_with
  rw [if_pos h]

/-- Witness for C8 at `start = end = 5`. -/
theorem fill_with_invalid_range_witness :
    fill_with (fun _ => .success) 5 5 7 0 = some (.invalidParameter, []) :=
  fill_with_invalid_range (fun _ => .success) 5 5 7 0 (le_refl 5)

/-- C9 (amended with the no-overflow bound `end + pattern_blocks < 2^64`):
with `end > start`, `pattern_blocks >= 1` and all writes succeeding,
`fill_with` issues exactly `ceil((end - start + 1) / pattern_blocks)`
writes, the `k`-th starting at `start + k * pattern_blocks` with size
`pattern_blocks` clamped to the blocks remaining, and no write extends
past block `end`. -/
theorem fill_with_tiles_range (wr : Nat → EfiStatus) (startLba endLba pb fuel : Nat)
    (hwr : ∀ l, wr l = .success) (hstart : startLba < endLba) (hpb : 1 ≤ pb)
    (hW : endLba + pb < W64) (hfuel : (endLba - startLba) / pb + 2 ≤ fuel) :
    ∃ ws, fill_with wr startLba endLba pb fuel = some (.success, ws) ∧
      ws.length = (endLba - startLba + pb) / pb ∧
      (∀ i : Nat, ws[i]? =
        if i < ws.length then
          some ⟨startLba + i * pb, min pb (endLba + 1 - (startLba + i * pb))⟩
        else none) ∧
      (∀ w ∈ ws, w.lba + w.size ≤ endLba + 1) := by
  have hle : startLba ≤ endLba := le_of_lt hstart
  have htile := fillLoop_tile wr endLba pb hwr hpb hW fuel startLba hle hfuel
  refine ⟨tileFrom endLba pb startLba ((endLba - startLba) / pb + 1), ?_, ?_, ?_, ?_⟩
  · have hg : ¬(endLba ≤ startLba) := by omega
    unfold fill_with
    rw [if_neg hg]
    exact htile
  · rw [tileFrom_length, Nat.add_div_right _ (by omega)]
  · intro i
    rw [tileFrom_get, tileFrom_length]
  · intro w hw
    obtain ⟨i, hi, hwi⟩ := List.mem_iff_getElem.mp hw
    have hk : i < (endLba - startLba) / pb + 1 := by
      rw [tileFrom_length] at hi; exact hi
    have himul : i * pb ≤ endLba - startLba :=
      le_trans (Nat.mul_le_mul_right pb (by omega)) (Nat.div_mul_le_self _ _)
    have hpos : startLba + i * pb ≤ endLba := by omega
    have hwq : (tileFrom endLba pb startLba ((endLba - startLba) / pb + 1))[i]? = some w := by
      rw [List.getElem?_eq_getElem hi, hwi]
    rw [tileFrom_get, if_pos hk] at hwq
    have hw' := Option.some.inj hwq
    have hmin := min_le_right pb (endLba + 1 - (startLba + i * pb))
    rw [← hw']
    show startLba + i * pb + min pb (endLba + 1 - (startLba + i * pb)) ≤ endLba + 1
    omega

/-- Witness for C9 at the example of the spec: `start = 10`, `end = 13`,
`pattern_blocks = 2`. -/
theorem fill_with_tiles_range_witness :
    ∃ ws, fill_with (fun _ => .success) 10 13 2 4 = some (.success, ws) ∧
      ws.length = (13 - 10 + 2) / 2 ∧
      (∀ i : Nat, ws[i]? =
        if i < ws.length then
          some ⟨10 + i * 2, min 2 (13 + 1 - (10 + i * 2))⟩
        else none) ∧
      (∀ w ∈ ws, w.lba + w.size ≤ 13 + 1) :=
  fill_with_tiles_range (fun _ => .success) 10 13 2 4 (fun _ => rfl)
    (by decide) (by decide) (by decide) (by decide)

/-- Counterexample to C9 as stated (no overflow proviso): at
`start = 5`, `end = 10`, `pattern_blocks = 2^64 - 3` the `UINT64`
computation `lba + pattern_blocks` wraps, so the code issues two
writes, one of which covers `2^64 - 3` blocks far past `end`, where
the claim demands a single clamped write of 6 blocks. -/
theorem fill_with_overflow_cex :
    fill_with (fun _ => .success) 5 10 (2 ^ 64 - 3) 3 =
      some (.success, [⟨5, 2 ^ 64 - 3⟩, ⟨2, 9⟩]) ∧
    (10 - 5 + 1 + (2 ^ 64 - 3) - 1) / (2 ^ 64 - 3) = 1 ∧
    ¬(∀ w ∈ [(⟨5, 2 ^ 64 - 3⟩ : WriteCall), ⟨2, 9⟩], w.lba + w.size ≤ 10 + 1) := by
  refine ⟨by decide, by decide, ?_⟩
  intro h
  have := h ⟨5, 2 ^ 64 - 3⟩ (by decide)
  revert this
  decide

/-- C10 (amended): `fill_with` terminates for every input with
`pattern_blocks >= 1` as long as `end + pattern_blocks` does not
overflow `UINT64`; with `pattern_blocks = 0`, `end > start` and a
device whose write succeeds, the loop never advances and no fuel
finishes it. -/
theorem fill_with_termination (wr : Nat → EfiStatus) (startLba endLba pb : Nat) :
    (1 ≤ pb → endLba + pb < W64 →
      ∃ fuel r, fill_with wr startLba endLba pb fuel = some r) ∧
    (pb = 0 → startLba < endLba → startLba < W64 → (wr startLba).isError = false →
      ∀ fuel, fill_with wr startLba endLba pb fuel = none) := by
  constructor
  · intro hpb hW
    by_cases hr : endLba ≤ startLba
    · exact ⟨0, (.invalidParameter, []), by unfold fill_with; rw [if_pos hr]⟩
    · have hs := fillLoop_isSome wr endLba pb hpb hW
        ((endLba - startLba) / pb + 2) startLba (le_refl _)
      obtain ⟨r, hr2⟩ := Option.isSome_iff_exists.mp hs
      exact ⟨(endLba - startLba) / pb + 2, r, by unfold fill_with; rw [if_neg hr]; exact hr2⟩
  · intro hpb hlt hW hok fuel
    have hg : ¬(endLba ≤ startLba) := by omega
    unfold fill_with
    rw [if_neg hg, hpb]
    exact fillLoop_none_pb_zero wr endLba startLba (le_of_lt hlt) hW hok fuel

/-- Witness for C10: termination at `(10, 13, 2)`, and divergence of
the zero-stride loop at `(10, 13, 0)`. -/
theorem fill_with_termination_witness :
    (∃ fuel r, fill_with (fun _ => .success) 10 13 2 fuel = some r) ∧
    (∀ fuel, fill_with (fun _ => .success) 10 13 0 fuel = none) :=
  ⟨(fill_with_termination (fun _ => .success) 10 13 2).1 (by decide) (by decide),
   fun fuel =>
     (fill_with_termination (fun _ => .success) 10 13 0).2 rfl (by decide) (by decide)
       rfl fuel⟩

/-- Counterexample to C10's claim that `pattern_blocks >= 1` always
terminates: at `end = 2^64 - 1` the `UINT64` guard `lba <= end` can
never fail, and the loop runs forever even with stride 1. -/
theorem fill_with_nontermination_cex :
    ¬ ∃ fuel r, fill_with (fun _ => .success) 0 (W64 - 1) 1 fuel = some r := by
  rintro ⟨fuel, r, hr⟩
  have hg : ¬(W64 - 1 ≤ 0) := by norm_num [W64]
  unfold fill_with at hr
  rw [if_neg hg] at hr
  rw [fillLoop_none_wrap (fun _ => .success) (fun _ => rfl) fuel 0 (by norm_num [W64])] at hr
  cases hr


/-- Counterexample to C1: on the one-eMMC environment, the first
`get_boot_device` triggers the scan and returns its address, yet the
cache is NOT recorded as initialized (the function never assigns
`initialized`), and a second `get_boot_device` call runs a new scan
which — because the stale `Function`/`Device` fields make the skip rule
drop the device — returns no address at all. -/
theorem get_boot_device_not_memoized_cex :
    (get_boot_device envOne initState).1 = some ⟨1, 2⟩ ∧
    ((get_boot_device envOne initState).2).initialized = false ∧
    (get_boot_device envOne (get_boot_device envOne initState).2).1 = none := by
  refine ⟨by decide, by decide, by decide⟩

/-- C1 (amended): `get_boot_device` never records the cache as
initialized; only once `initialized` is true (set by `valid_storage`
or `storage_set_boot_device`) does a `get_boot_device` call perform no
enumeration — it then depends on no environment, leaves the state
unchanged and returns exactly the cached address. -/
theorem get_boot_device_after_initialized (env env' : Env) (s : BootState) :
    ((get_boot_device env s).2).initialized = s.initialized ∧
    (s.initialized = true →
      get_boot_device env s = (cachedAddr s, s) ∧
      get_boot_device env s = get_boot_device env' s) := by
  constructor
  · unfold get_boot_device
    by_cases hi : s.initialized = false
    · simp only [hi, if_true]
      rw [identify_initialized env .all s, hi]
    · simp [hi]
  · intro hi
    have hni : ¬(s.initialized = false) := by simp [hi]
    unfold get_boot_device
    rw [if_neg hni, if_neg hni]
    exact ⟨rfl, rfl⟩

/-- Witness for C1 (amended) on an initialized cache state. -/
theorem get_boot_device_after_initialized_witness :
    ((get_boot_device envOne { initState with initialized := true }).2).initialized =
      ({ initState with initialized := true } : BootState).initialized ∧
    get_boot_device envOne { initState with initialized := true } =
      (cachedAddr { initState with initialized := true }, { initState with initialized := true }) :=
  ⟨(get_boot_device_after_initialized envOne envLocateFail
      { initState with initialized := true }).1,
   ((get_boot_device_after_initialized envOne envLocateFail
      { initState with initialized := true }).2 rfl).1⟩

/-- Counterexample to C4: the same single-device environment scanned
twice from the initial state.  The first scan succeeds; the second
fails with `EFI_UNSUPPORTED` because the address left in
`boot_device.Function`/`Device` by the first scan (only `Header.Type`
is reset) makes the skip rule drop the device before it can be
accepted — a leftover address does cause a skip. -/
theorem stale_address_skip_cex :
    (identify_boot_device envOne .all initState).1 = .success ∧
    (identify_boot_device envOne .all ((identify_boot_device envOne .all initState).2)).1 =
      .unsupported := by
  refine ⟨by decide, by decide⟩

/-- C4 (amended): the scan resets only `Header.Type`; the
`Function`/`Device` fields persist into the loop, and the skip rule
fires exactly when the enumerated address equals those fields — which
before any acceptance of the pass are the stale pre-scan values.  A
recognized PCI device is skipped when it matches them and accepted
(while nothing has been accepted, `Header.Type = 0`) when it does not. -/
theorem scan_skip_rule (filter : StorageFilter) (d : Device) (s : BootState)
    (p : PCIAddr) (t : StorageType)
    (hpath : d.hasPath = true) (hpci : d.pci = some p) :
    (s.bdFunction = p.function ∧ s.bdDevice = p.device → scanStep filter d s = .ok s) ∧
    (¬(s.bdFunction = p.function ∧ s.bdDevice = p.device) →
      identify_storage d filter = some t → s.bdHeaderType = 0 →
      scanStep filter d s = .ok (acceptDevice s p t)) := by
  constructor
  · intro h
    exact scanStep_addr_skip s hpci h
  · intro hna hid hhdr
    exact scanStep_accept s hpath hpci hna hid (Or.inl hhdr)

/-- Witness for C4 (amended): the eMMC device is skipped by a state
already holding its address, and accepted from the reset state. -/
theorem scan_skip_rule_witness :
    scanStep .all demmc { initState with bdFunction := 1, bdDevice := 2 } =
      .ok { initState with bdFunction := 1, bdDevice := 2 } ∧
    scanStep .all demmc initState = .ok (acceptDevice initState ⟨1, 2⟩ .emmc) :=
  ⟨(scan_skip_rule .all demmc { initState with bdFunction := 1, bdDevice := 2 } ⟨1, 2⟩ .emmc
      rfl rfl).1 (by decide),
   (scan_skip_rule .all demmc initState ⟨1, 2⟩ .emmc rfl rfl).2 (by decide) (by decide) rfl⟩


/-- Counterexample to C5: a successful scan commits a descriptor and a
non-sentinel address; a following scan whose device enumeration fails
clears `cur_storage` on entry but returns before `Header.Type` is
reset, leaving a state where no descriptor is set although the cached
address is non-sentinel — the claimed iff is broken on the
enumeration-failure path. -/
theorem descr_addr_invariant_cex :
    ((identify_boot_device envLocateFail .all
        ((identify_boot_device envOne .all initState).2)).2).curStorage = none ∧
    ((identify_boot_device envLocateFail .all
        ((identify_boot_device envOne .all initState).2)).2).bdHeaderType = 1 := by
  refine ⟨by decide, by decide⟩

/-- C5 (amended): as long as the device enumeration of any triggered
scan succeeds, every exposed operation leaves the cache with the
descriptor set iff the address is non-sentinel (the scan establishes
the invariant outright; the other operations preserve it). -/
theorem descr_addr_invariant (env : Env) (filter : StorageFilter) (d p : Device)
    (log_unit startLba endLba : Nat) (s : BootState)
    (henv : env.locateStatus = .success) (hs : descrAddrInv s) :
    descrAddrInv (identify_boot_device env filter s).2 ∧
    descrAddrInv (get_boot_device env s).2 ∧
    descrAddrInv (storage_set_boot_device d s).2 ∧
    descrAddrInv (storage_check_logical_unit env p log_unit s).2 ∧
    descrAddrInv (storage_erase_blocks env startLba endLba s).2 := by
  have herr : env.locateStatus.isError = false := by rw [henv]; rfl
  have hident : ∀ s' : BootState, descrAddrInv (identify_boot_device env .all s').2 :=
    fun s' => identify_inv env .all s' herr
  have hvalid : descrAddrInv (valid_storage env s).2 := by
    unfold valid_storage
    by_cases hi : s.initialized = false
    · simp only [hi, if_true]
      exact hident _
    · simp only [hi, Bool.false_eq_true, if_false]
      exact hs
  refine ⟨identify_inv env filter s herr, ?_, ?_, ?_, ?_⟩
  · unfold get_boot_device
    by_cases hi : s.initialized = false
    · simp only [hi, if_true]
      exact hident s
    · simp only [hi, Bool.false_eq_true, if_false]
      exact hs
  · unfold storage_set_boot_device
    cases hpath : d.hasPath with
    | false => simpa using hs
    | true =>
      cases hpci : d.pci with
      | none => simpa using hs
      | some q =>
        cases hid : identify_storage d .all with
        | none => simpa using hs
        | some t => simp [descrAddrInv]
  · unfold storage_check_logical_unit
    by_cases hv : (valid_storage env s).1 = true
    · simp only [hv, Bool.not_true, Bool.false_eq_true, if_false]
      by_cases hb : is_boot_device (valid_storage env s).2 p = true
      · simp only [hb, Bool.not_true, Bool.false_eq_true, if_false]
        cases hc : ((valid_storage env s).2).curStorage <;> exact hvalid
      · simp only [hb]
        simpa using hvalid
    · have hv' : (valid_storage env s).1 = false := by
        revert hv; cases (valid_storage env s).1 <;> simp
      simp only [hv', Bool.not_false, if_true]
      exact hvalid
  · unfold storage_erase_blocks
    by_cases hv : (valid_storage env s).1 = true
    · simp only [hv, Bool.not_true, Bool.false_eq_true, if_false]
      cases hc : ((valid_storage env s).2).curStorage <;> exact hvalid
    · have hv' : (valid_storage env s).1 = false := by
        revert hv; cases (valid_storage env s).1 <;> simp
      simp only [hv', Bool.not_false, if_true]
      exact hvalid


/-- Witness for C5 (amended) on the one-device environment from the
initial state. -/
theorem descr_addr_invariant_witness :
    descrAddrInv (identify_boot_device envOne .all initState).2 ∧
    descrAddrInv (get_boot_device envOne initState).2 ∧
    descrAddrInv (storage_set_boot_device demmc initState).2 ∧
    descrAddrInv (storage_check_logical_unit envOne demmc 0 initState).2 ∧
    descrAddrInv (storage_erase_blocks envOne 1 2 initState).2 :=
  descr_addr_invariant envOne .all demmc demmc 0 1 2 initState rfl (by unfold descrAddrInv; decide)

/-- C6: `storage_set_boot_device` fails with `EFI_UNSUPPORTED` — and
leaves the whole cache state untouched — when the handle yields no
device path, a non-PCI path, or a path no descriptor recognizes; on
success it commits address, type, descriptor and `initialized = TRUE`
together.  The function takes no environment: no enumeration-based
scan is involved in any path. -/
theorem set_boot_device_spec (d : Device) (s : BootState) (p : PCIAddr) (t : StorageType) :
    (d.hasPath = false → storage_set_boot_device d s = (.unsupported, s)) ∧
    (d.pci = none → storage_set_boot_device d s = (.unsupported, s)) ∧
    (identify_storage d .all = none → storage_set_boot_device d s = (.unsupported, s)) ∧
    (d.hasPath = true → d.pci = some p → identify_storage d .all = some t →
      storage_set_boot_device d s =
        (.success,
         { curStorage := some t, bdHeaderType := 1, bdFunction := p.function,
           bdDevice := p.device, bootDeviceType := t, initialized := true })) := by
  refine ⟨?_, ?_, ?_, ?_⟩
  · intro h
    unfold storage_set_boot_device
    simp [h]
  · intro h
    unfold storage_set_boot_device
    cases hpath : d.hasPath <;> simp [h]
  · intro h
    unfold storage_set_boot_device
    cases hpath : d.hasPath with
    | false => simp
    | true =>
      cases hpci : d.pci with
      | none => simp
      | some q => simp [h]
  · intro hpath hpci hid
    unfold storage_set_boot_device
    simp [hpath, hpci, hid]

/-- Witness for C6: failure on a pathless handle, and success on the
eMMC handle committing its full cache state. -/
theorem set_boot_device_spec_witness :
    storage_set_boot_device { hasPath := false, pci := none, probes := fun _ => false }
      initState = (.unsupported, initState) ∧
    storage_set_boot_device demmc initState =
      (.success,
       { curStorage := some .emmc, bdHeaderType := 1, bdFunction := 1,
         bdDevice := 2, bootDeviceType := .emmc, initialized := true }) :=
  ⟨(set_boot_device_spec { hasPath := false, pci := none, probes := fun _ => false }
      initState ⟨0, 0⟩ .emmc).1 rfl,
   (set_boot_device_spec demmc initState ⟨1, 2⟩ .emmc).2.2.2 rfl rfl (by decide)⟩


/-- The boolean `valid_storage` computes coincides with the validity of
the cache state it leaves behind: `initialized`, non-sentinel address
and a selected descriptor. -/
lemma valid_storage_iff (env : Env) (s : BootState) :
    ((valid_storage env s).1 = true ↔ validCache (valid_storage env s).2) := by
  unfold valid_storage
  by_cases hi : s.initialized = false
  · rw [if_pos hi]
    rcases identify_cases env .all { s with initialized := true } with
      ⟨h1, h2, h3⟩ | ⟨h1, h2⟩
    · have hinit : ((identify_boot_device env .all { s with initialized := true }).2).initialized
          = true := by rw [identify_initialized]
      simp only [h1]
      exact ⟨fun _ => ⟨hinit, h3, h2⟩, fun _ => rfl⟩
    · simp only []
      constructor
      · intro hfalse
        rw [h1] at hfalse
        cases hfalse
      · rintro ⟨-, -, hsome⟩
        rw [h2] at hsome
        cases hsome
  · have hi' : s.initialized = true := by
      revert hi; cases s.initialized <;> simp
    rw [if_neg hi]
    simp only [Bool.and_eq_true, bne_iff_ne, ne_eq, validCache, hi', true_and]


/-- On an uninitialized cache, `valid_storage` sets `initialized` and
reports the outcome of a fresh `STORAGE_ALL` scan. -/
lemma valid_storage_lazy_eq (env : Env) (s : BootState) (hi : s.initialized = false) :
    valid_storage env s =
      (!((identify_boot_device env .all { s with initialized := true }).1).isError,
       (identify_boot_device env .all { s with initialized := true }).2) := by
  unfold valid_storage
  rw [if_pos hi]

/-- C7: `storage_check_logical_unit` either returns `EFI_UNSUPPORTED`
— exactly when the resulting cache is invalid or the path does not
match the cached address on `Function` and `Device` — or returns the
cached descriptor's `check_logical_unit` verdict; and with an
uninitialized cache whose triggered scan does not succeed (in
particular when nothing was ever identified) it returns
`EFI_UNSUPPORTED`. -/
theorem check_logical_unit_spec (env : Env) (p : Device) (log_unit : Nat) (s : BootState) :
    (((storage_check_logical_unit env p log_unit s).1 = .unsupported ∧
       ¬(validCache (storage_check_logical_unit env p log_unit s).2 ∧
         is_boot_device (storage_check_logical_unit env p log_unit s).2 p = true)) ∨
     (∃ t, ((storage_check_logical_unit env p log_unit s).2).curStorage = some t ∧
       (storage_check_logical_unit env p log_unit s).1 = env.checkLU t p log_unit ∧
       validCache (storage_check_logical_unit env p log_unit s).2 ∧
       is_boot_device (storage_check_logical_unit env p log_unit s).2 p = true)) ∧
    (s.initialized = false → (identify_boot_device env .all s).1 ≠ .success →
      (storage_check_logical_unit env p log_unit s).1 = .unsupported) := by
  constructor
  · by_cases hv : (valid_storage env s).1 = true
    · by_cases hb : is_boot_device (valid_storage env s).2 p = true
      · have hvc := (valid_storage_iff env s).mp hv
        obtain ⟨t, ht⟩ := Option.isSome_iff_exists.mp hvc.2.2
        have heq : storage_check_logical_unit env p log_unit s =
            (env.checkLU t p log_unit, (valid_storage env s).2) := by
          simp [storage_check_logical_unit, hv, hb, ht]
        refine Or.inr ⟨t, ?_, ?_, ?_, ?_⟩ <;> rw [heq]
        · exact ht
        · exact hvc
        · exact hb
      · have heq : storage_check_logical_unit env p log_unit s =
            (.unsupported, (valid_storage env s).2) := by
          simp [storage_check_logical_unit, hv, hb]
        refine Or.inl ⟨?_, ?_⟩ <;> rw [heq]
        · rintro ⟨-, hbb⟩
          exact hb hbb
    · have hv' : (valid_storage env s).1 = false := by
        revert hv; cases (valid_storage env s).1 <;> simp
      have heq : storage_check_logical_unit env p log_unit s =
          (.unsupported, (valid_storage env s).2) := by
        simp [storage_check_logical_unit, hv']
      refine Or.inl ⟨?_, ?_⟩ <;> rw [heq]
      · rintro ⟨hvc, -⟩
        exact hv ((valid_storage_iff env s).mpr hvc)
  · intro hi hns
    have h1 : (identify_boot_device env .all { s with initialized := true }).1 =
        (identify_boot_device env .all s).1 := by
      rw [identify_initialized_set]
    have herr : ((identify_boot_device env .all { s with initialized := true }).1).isError
        = true := (EfiStatus.isError_iff _).mpr (by rw [h1]; exact hns)
    have hv' : (valid_storage env s).1 = false := by
      rw [valid_storage_lazy_eq env s hi]
      simp [herr]
    simp [storage_check_logical_unit, hv']


/-- Witness for C7: before any identification, with a failing
enumeration, any path is rejected with `EFI_UNSUPPORTED`. -/
theorem check_logical_unit_spec_witness :
    (storage_check_logical_unit envLocateFail demmc 0 initState).1 = .unsupported :=
  (check_logical_unit_spec envLocateFail demmc 0 initState).2 rfl (by decide)

/-- Scanning exactly two recognized PCI devices where the first has
strictly higher priority: the first is accepted and kept. -/
lemma scanLoop_pair_keep (filter : StorageFilter) (dA dB : Device) (pA pB : PCIAddr)
    (tA tB : StorageType) (s0 : BootState)
    (hApath : dA.hasPath = true) (hApci : dA.pci = some pA)
    (hBpath : dB.hasPath = true) (hBpci : dB.pci = some pB)
    (hidA : identify_storage dA filter = some tA)
    (hidB : identify_storage dB filter = some tB)
    (h0 : s0.bdHeaderType = 0)
    (hsA : ¬(s0.bdFunction = pA.function ∧ s0.bdDevice = pA.device))
    (hneAB : ¬(pA.function = pB.function ∧ pA.device = pB.device))
    (hord : tA.ord < tB.ord) :
    scanLoop filter [dA, dB] s0 = .ok (acceptDevice s0 pA tA) := by
  have hTne : tA ≠ tB := fun h => by rw [h] at hord; exact lt_irrefl _ hord
  rw [scanLoop_cons, scanStep_accept s0 hApath hApci hsA hidA (Or.inl h0)]
  show scanLoop filter [dB] (acceptDevice s0 pA tA) = .ok (acceptDevice s0 pA tA)
  have hncond : ¬((acceptDevice s0 pA tA).bdHeaderType = 0 ∨
      tB.ord < (acceptDevice s0 pA tA).bootDeviceType.ord) := by
    rintro (h | h)
    · simp [acceptDevice] at h
    · exact absurd h (by simp [acceptDevice]; omega)
  rw [scanLoop_cons, scanStep_lower (acceptDevice s0 pA tA) hBpath hBpci hneAB hidB hncond hTne]
  rfl

/-- Scanning exactly two recognized PCI devices where the second has
strictly higher priority: the second replaces the first. -/
lemma scanLoop_pair_replace (filter : StorageFilter) (dA dB : Device) (pA pB : PCIAddr)
    (tA tB : StorageType) (s0 : BootState)
    (hApath : dA.hasPath = true) (hApci : dA.pci = some pA)
    (hBpath : dB.hasPath = true) (hBpci : dB.pci = some pB)
    (hidA : identify_storage dA filter = some tA)
    (hidB : identify_storage dB filter = some tB)
    (h0 : s0.bdHeaderType = 0)
    (hsA : ¬(s0.bdFunction = pA.function ∧ s0.bdDevice = pA.device))
    (hneAB : ¬(pA.function = pB.function ∧ pA.device = pB.device))
    (hord : tB.ord < tA.ord) :
    scanLoop filter [dA, dB] s0 = .ok (acceptDevice (acceptDevice s0 pA tA) pB tB) := by
  rw [scanLoop_cons, scanStep_accept s0 hApath hApci hsA hidA (Or.inl h0)]
  show scanLoop filter [dB] (acceptDevice s0 pA tA) =
    .ok (acceptDevice (acceptDevice s0 pA tA) pB tB)
  have hcond : (acceptDevice s0 pA tA).bdHeaderType = 0 ∨
      tB.ord < (acceptDevice s0 pA tA).bootDeviceType.ord := Or.inr hord
  rw [scanLoop_cons,
      scanStep_accept (acceptDevice s0 pA tA) hBpath hBpci hneAB hidB hcond]
  rfl

/-- C3: with exactly two distinct recognized PCI devices of types `T1`
(higher priority) and `T2`, neither colliding with the other nor with
the stale pre-scan address, `identify_boot_device` succeeds and commits
`T1`, its descriptor and its bus address — in both enumeration orders. -/
theorem identify_priority_wins (env1 env2 : Env) (d1 d2 : Device) (p1 p2 : PCIAddr)
    (T1 T2 : StorageType) (s : BootState)
    (h1p : d1.hasPath = true) (h1a : d1.pci = some p1)
    (h2p : d2.hasPath = true) (h2a : d2.pci = some p2)
    (hid1 : identify_storage d1 .all = some T1)
    (hid2 : identify_storage d2 .all = some T2)
    (hord : T1.ord < T2.ord)
    (hne : ¬(p1.function = p2.function ∧ p1.device = p2.device))
    (hs1 : ¬(s.bdFunction = p1.function ∧ s.bdDevice = p1.device))
    (hs2 : ¬(s.bdFunction = p2.function ∧ s.bdDevice = p2.device))
    (henv1 : env1.locateStatus = .success) (hh1 : env1.handles = [d1, d2])
    (henv2 : env2.locateStatus = .success) (hh2 : env2.handles = [d2, d1]) :
    identify_boot_device env1 .all s =
      (.success,
       { s with curStorage := some T1, bdHeaderType := 1, bdFunction := p1.function,
                bdDevice := p1.device, bootDeviceType := T1 }) ∧
    identify_boot_device env2 .all s =
      (.success,
       { s with curStorage := some T1, bdHeaderType := 1, bdFunction := p1.function,
                bdDevice := p1.device, bootDeviceType := T1 }) := by
  have hne' : ¬(p2.function = p1.function ∧ p2.device = p1.device) := by
    rintro ⟨ha, hb⟩
    exact hne ⟨ha.symm, hb.symm⟩
  constructor
  · simp only [identify_boot_device, henv1, hh1, EfiStatus.isError, Bool.false_eq_true,
      if_false]
    rw [scanLoop_pair_keep .all d1 d2 p1 p2 T1 T2
      { s with curStorage := none, bdHeaderType := 0 }
      h1p h1a h2p h2a hid1 hid2 rfl hs1 hne hord]
    rfl
  · simp only [identify_boot_device, henv2, hh2, EfiStatus.isError, Bool.false_eq_true,
      if_false]
    rw [scanLoop_pair_replace .all d2 d1 p2 p1 T2 T1
      { s with curStorage := none, bdHeaderType := 0 }
      h2p h2a h1p h1a hid2 hid1 rfl hs2 hne' hord]
    rfl

/-- Witness for C3: eMMC (priority 0) and SATA (priority 3) on distinct
addresses, both orders, from the initial state. -/
theorem identify_priority_wins_witness :
    identify_boot_device envPair1 .all initState =
      (.success,
       { initState with curStorage := some .emmc, bdHeaderType := 1, bdFunction := 1,
                        bdDevice := 2, bootDeviceType := .emmc }) ∧
    identify_boot_device envPair2 .all initState =
      (.success,
       { initState with curStorage := some .emmc, bdHeaderType := 1, bdFunction := 1,
                        bdDevice := 2, bootDeviceType := .emmc }) :=
  identify_priority_wins envPair1 envPair2 demmc dsata1 ⟨1, 2⟩ ⟨3, 4⟩ .emmc .sata initState
    rfl rfl rfl rfl (by decide) (by decide) (by decide) (by decide) (by decide) (by decide)
    rfl rfl rfl rfl

/-- Counterexample to C2: two distinct SATA controllers are both
enumerated, yet because an eMMC controller (strictly higher priority)
is accepted first, the duplicate SATA devices never match the accepted
type and the scan succeeds instead of reporting the ambiguity. -/
theorem identify_duplicate_masked_cex :
    identify_storage dsata1 .all = some .sata ∧
    identify_storage dsata2 .all = some .sata ∧
    dsata1.pci ≠ dsata2.pci ∧
    (identify_boot_device envDupMasked .all initState).1 = .success := by
  refine ⟨by decide, by decide, by decide, by decide⟩


/-- `identifiesAs`, componentwise. -/
lemma identifiesAs_iff (filter : StorageFilter) (T : StorageType) (d : Device) :
    identifiesAs filter T d = true ↔
      (d.hasPath = true ∧ d.pci.isSome = true ∧ identify_storage d filter = some T) := by
  simp [identifiesAs, Bool.and_eq_true, and_assoc]

/-- `ordAtLeast` on a recognition result. -/
lemma ordAtLeast_some (T t : StorageType) :
    ordAtLeast T (some t) = true ↔ T.ord ≤ t.ord := by
  simp [ordAtLeast]

/-- The technology ordinal is injective. -/
lemma StorageType.ord_inj (a b : StorageType) (h : a.ord = b.ord) : a = b := by
  cases a <;> cases b <;> first | rfl | (exfalso; simp [StorageType.ord] at h)

/-- Once a scan pass has accepted a device of type `T`, if the
remaining handles contain a device recognized as `T` at a different
address — and no handle is recognized with strictly higher priority
than `T` — the pass aborts with `EFI_UNSUPPORTED` and a cleared
candidate. -/
lemma scanLoop_ambig_from_accepted (filter : StorageFilter) (T : StorageType) :
    ∀ (ds : List Device) (s : BootState),
      s.bdHeaderType ≠ 0 → s.curStorage = some T → s.bootDeviceType = T →
      (∀ d ∈ ds, ordAtLeast T (identify_storage d filter) = true) →
      (∃ d ∈ ds, identifiesAs filter T d = true ∧
        devAddr d ≠ some ⟨s.bdFunction, s.bdDevice⟩) →
      ∃ s', scanLoop filter ds s = .error (.unsupported, s') ∧
        s'.curStorage = none ∧ s'.bdHeaderType = 0 := by
  intro ds
  induction ds with
  | nil =>
    intro s _ _ _ _ hex
    obtain ⟨d, hd, -⟩ := hex
    exact absurd hd (List.not_mem_nil d)
  | cons d ds ih =>
    intro s hhdr hcur htype hordl hex
    have hords : ∀ d' ∈ ds, ordAtLeast T (identify_storage d' filter) = true :=
      fun d' hd' => hordl d' (List.mem_cons_of_mem d hd')
    cases hpath : d.hasPath with
    | false =>
      rw [scanLoop_cons, scanStep_no_path s hpath]
      refine ih s hhdr hcur htype hords ?_
      obtain ⟨d0, hd0, hq, ha⟩ := hex
      rcases List.mem_cons.mp hd0 with rfl | hmem
      · rw [identifiesAs_iff] at hq
        rw [hpath] at hq
        exact absurd hq.1 (by simp)
      · exact ⟨d0, hmem, hq, ha⟩
    | true =>
      cases hpci : d.pci with
      | none =>
        rw [scanLoop_cons, scanStep_no_pci s hpath hpci]
        refine ih s hhdr hcur htype hords ?_
        obtain ⟨d0, hd0, hq, ha⟩ := hex
        rcases List.mem_cons.mp hd0 with rfl | hmem
        · rw [identifiesAs_iff] at hq
          rw [hpci] at hq
          exact absurd hq.2.1 (by simp)
        · exact ⟨d0, hmem, hq, ha⟩
      | some p =>
        by_cases haddr : s.bdFunction = p.function ∧ s.bdDevice = p.device
        · rw [scanLoop_cons, scanStep_addr_skip s hpci haddr]
          refine ih s hhdr hcur htype hords ?_
          obtain ⟨d0, hd0, hq, ha⟩ := hex
          rcases List.mem_cons.mp hd0 with rfl | hmem
          · exfalso
            apply ha
            obtain ⟨h1, h2⟩ := haddr
            cases p with
            | mk pf pd =>
              simp only [] at h1 h2
              simp [devAddr, hpath, hpci]
              exact ⟨h1.symm, h2.symm⟩
          · exact ⟨d0, hmem, hq, ha⟩
        · cases hid : identify_storage d filter with
          | none =>
            rw [scanLoop_cons, scanStep_no_id s hpath hpci haddr hid]
            refine ih s hhdr hcur htype hords ?_
            obtain ⟨d0, hd0, hq, ha⟩ := hex
            rcases List.mem_cons.mp hd0 with rfl | hmem
            · rw [identifiesAs_iff] at hq
              rw [hid] at hq
              exact absurd hq.2.2 (by simp)
            · exact ⟨d0, hmem, hq, ha⟩
          | some t =>
            have hTle : T.ord ≤ t.ord := by
              have h := hordl d (List.mem_cons_self d ds)
              rw [hid] at h
              exact (ordAtLeast_some T t).mp h
            have hncond : ¬(s.bdHeaderType = 0 ∨ t.ord < s.bootDeviceType.ord) := by
              rintro (h | h)
              · exact hhdr h
              · rw [htype] at h
                omega
            by_cases hTt : t = T
            · rw [scanLoop_cons,
                scanStep_ambiguous s hpath hpci haddr hid hncond (htype.trans hTt.symm)]
              exact ⟨clearDevice s, rfl, rfl, rfl⟩
            · have hbne : s.bootDeviceType ≠ t := by
                rw [htype]
                exact fun h => hTt h.symm
              rw [scanLoop_cons, scanStep_lower s hpath hpci haddr hid hncond hbne]
              refine ih s hhdr hcur htype hords ?_
              obtain ⟨d0, hd0, hq, ha⟩ := hex
              rcases List.mem_cons.mp hd0 with rfl | hmem
              · exfalso
                rw [identifiesAs_iff] at hq
                rw [hid] at hq
                exact hTt (Option.some.inj hq.2.2)
              · exact ⟨d0, hmem, hq, ha⟩


/-- While a scan pass holds an accepted candidate of strictly lower
priority than `T`, two distinct-addressed handles recognized as `T`
among the remaining ones (with nothing of higher priority than `T`
anywhere, all addresses distinct and none equal to the accepted one)
still force the pass to abort with `EFI_UNSUPPORTED`. -/
lemma scanLoop_ambig_from_lower (filter : StorageFilter) (T : StorageType) :
    ∀ (ds : List Device) (U : StorageType) (s : BootState),
      s.bdHeaderType ≠ 0 → s.curStorage = some U → s.bootDeviceType = U → T.ord < U.ord →
      (∀ d ∈ ds, ordAtLeast T (identify_storage d filter) = true) →
      2 ≤ ds.countP (identifiesAs filter T) →
      (ds.filterMap devAddr).Nodup →
      (⟨s.bdFunction, s.bdDevice⟩ : PCIAddr) ∉ ds.filterMap devAddr →
      ∃ s', scanLoop filter ds s = .error (.unsupported, s') ∧
        s'.curStorage = none ∧ s'.bdHeaderType = 0 := by
  intro ds
  induction ds with
  | nil =>
    intro U s _ _ _ _ _ htwo _ _
    simp [List.countP_nil] at htwo
  | cons d ds ih =>
    intro U s hhdr hcur htype hTU hordl htwo hnd hstale
    have hords : ∀ d' ∈ ds, ordAtLeast T (identify_storage d' filter) = true :=
      fun d' hd' => hordl d' (List.mem_cons_of_mem d hd')
    cases hpath : d.hasPath with
    | false =>
      have hidf : ¬(identifiesAs filter T d = true) := by
        rw [identifiesAs_iff]; simp [hpath]
      have hdevn : devAddr d = none := by simp [devAddr, hpath]
      rw [List.countP_cons_of_neg _ _ hidf] at htwo
      rw [List.filterMap_cons_none hdevn] at hnd hstale
      rw [scanLoop_cons, scanStep_no_path s hpath]
      exact ih U s hhdr hcur htype hTU hords htwo hnd hstale
    | true =>
      cases hpci : d.pci with
      | none =>
        have hidf : ¬(identifiesAs filter T d = true) := by
          rw [identifiesAs_iff]; simp [hpci]
        have hdevn : devAddr d = none := by simp [devAddr, hpath, hpci]
        rw [List.countP_cons_of_neg _ _ hidf] at htwo
        rw [List.filterMap_cons_none hdevn] at hnd hstale
        rw [scanLoop_cons, scanStep_no_pci s hpath hpci]
        exact ih U s hhdr hcur htype hTU hords htwo hnd hstale
      | some p =>
        have hdevA : devAddr d = some p := by simp [devAddr, hpath, hpci]
        rw [List.filterMap_cons_some hdevA] at hnd hstale
        have hndtail : (ds.filterMap devAddr).Nodup := (List.nodup_cons.mp hnd).2
        have hpnotin : p ∉ ds.filterMap devAddr := (List.nodup_cons.mp hnd).1
        have hstale_tail : (⟨s.bdFunction, s.bdDevice⟩ : PCIAddr) ∉ ds.filterMap devAddr :=
          fun h => hstale (List.mem_cons_of_mem _ h)
        have hstale_ne : (⟨s.bdFunction, s.bdDevice⟩ : PCIAddr) ≠ p :=
          fun h => hstale (by rw [h]; exact List.mem_cons_self _ _)
        by_cases haddr : s.bdFunction = p.function ∧ s.bdDevice = p.device
        · exfalso
          apply hstale_ne
          obtain ⟨h1, h2⟩ := haddr
          cases p with
          | mk pf pd =>
            simp only [] at h1 h2
            simp [h1, h2]
        · cases hid : identify_storage d filter with
          | none =>
            have hidf : ¬(identifiesAs filter T d = true) := by
              rw [identifiesAs_iff]; simp [hid]
            rw [List.countP_cons_of_neg _ _ hidf] at htwo
            rw [scanLoop_cons, scanStep_no_id s hpath hpci haddr hid]
            exact ih U s hhdr hcur htype hTU hords htwo hndtail hstale_tail
          | some t =>
            have hTle : T.ord ≤ t.ord := by
              have h := hordl d (List.mem_cons_self d ds)
              rw [hid] at h
              exact (ordAtLeast_some T t).mp h
            by_cases hrepl : t.ord < U.ord
            · have hcond : s.bdHeaderType = 0 ∨ t.ord < s.bootDeviceType.ord := by
                right; rw [htype]; exact hrepl
              rw [scanLoop_cons, scanStep_accept s hpath hpci haddr hid hcond]
              by_cases hTt : t = T
              · have hidT : identifiesAs filter T d = true := by
                  rw [identifiesAs_iff]
                  exact ⟨hpath, by simp [hpci], by rw [hid, hTt]⟩
                rw [List.countP_cons_of_pos _ _ hidT] at htwo
                have hone : 0 < ds.countP (identifiesAs filter T) := by omega
                obtain ⟨d0, hd0, hq⟩ := List.countP_pos_iff.mp hone
                obtain ⟨-, hsome0, -⟩ := (identifiesAs_iff filter T d0).mp hq
                obtain ⟨q, hq0⟩ := Option.isSome_iff_exists.mp hsome0
                have hdev0 : devAddr d0 = some q := by
                  simp [devAddr, ((identifiesAs_iff filter T d0).mp hq).1, hq0]
                have hqmem : q ∈ ds.filterMap devAddr :=
                  List.mem_filterMap.mpr ⟨d0, hd0, hdev0⟩
                have hqp : q ≠ p := fun h => hpnotin (h ▸ hqmem)
                rw [hTt]
                refine scanLoop_ambig_from_accepted filter T ds (acceptDevice s p T)
                  (by simp [acceptDevice]) rfl rfl hords ⟨d0, hd0, hq, ?_⟩
                rw [hdev0]
                intro hcontra
                exact hqp (Option.some.inj hcontra)
              · have hTUt : T.ord < t.ord :=
                  lt_of_le_of_ne hTle (fun h => hTt (StorageType.ord_inj T t h).symm)
                have hidf : ¬(identifiesAs filter T d = true) := by
                  rw [identifiesAs_iff]
                  rintro ⟨-, -, hcontra⟩
                  rw [hid] at hcontra
                  exact hTt (Option.some.inj hcontra)
                rw [List.countP_cons_of_neg _ _ hidf] at htwo
                exact ih t (acceptDevice s p t) (by simp [acceptDevice]) rfl rfl hTUt
                  hords htwo hndtail hpnotin
            · have hncond : ¬(s.bdHeaderType = 0 ∨ t.ord < s.bootDeviceType.ord) := by
                rintro (h | h)
                · exact hhdr h
                · rw [htype] at h
                  exact hrepl h
              by_cases hUt : U = t
              · rw [scanLoop_cons,
                  scanStep_ambiguous s hpath hpci haddr hid hncond (htype.trans hUt)]
                exact ⟨clearDevice s, rfl, rfl, rfl⟩
              · have hTt : ¬(identifiesAs filter T d = true) := by
                  rw [identifiesAs_iff]
                  rintro ⟨-, -, hcontra⟩
                  rw [hid] at hcontra
                  have : t = T := Option.some.inj hcontra
                  rw [this] at hrepl
                  exact hrepl hTU
                have hbne : s.bootDeviceType ≠ t := by
                  rw [htype]; exact hUt
                rw [List.countP_cons_of_neg _ _ hTt] at htwo
                rw [scanLoop_cons, scanStep_lower s hpath hpci haddr hid hncond hbne]
                exact ih U s hhdr hcur htype hTU hords htwo hndtail hstale_tail


/-- From the reset state of a fresh pass (sentinel `Header.Type`), two
distinct-addressed handles recognized as `T`, with no handle recognized
at strictly higher priority, all addresses pairwise distinct and none
equal to the stale pre-scan address, force the pass to abort with
`EFI_UNSUPPORTED` and a cleared candidate. -/
lemma scanLoop_ambig_from_start (filter : StorageFilter) (T : StorageType) :
    ∀ (ds : List Device) (s : BootState),
      s.bdHeaderType = 0 →
      (∀ d ∈ ds, ordAtLeast T (identify_storage d filter) = true) →
      2 ≤ ds.countP (identifiesAs filter T) →
      (ds.filterMap devAddr).Nodup →
      (⟨s.bdFunction, s.bdDevice⟩ : PCIAddr) ∉ ds.filterMap devAddr →
      ∃ s', scanLoop filter ds s = .error (.unsupported, s') ∧
        s'.curStorage = none ∧ s'.bdHeaderType = 0 := by
  intro ds
  induction ds with
  | nil =>
    intro s _ _ htwo _ _
    simp [List.countP_nil] at htwo
  | cons d ds ih =>
    intro s hhdr hordl htwo hnd hstale
    have hords : ∀ d' ∈ ds, ordAtLeast T (identify_storage d' filter) = true :=
      fun d' hd' => hordl d' (List.mem_cons_of_mem d hd')
    cases hpath : d.hasPath with
    | false =>
      have hidf : ¬(identifiesAs filter T d = true) := by
        rw [identifiesAs_iff]; simp [hpath]
      have hdevn : devAddr d = none := by simp [devAddr, hpath]
      rw [List.countP_cons_of_neg _ _ hidf] at htwo
      rw [List.filterMap_cons_none hdevn] at hnd hstale
      rw [scanLoop_cons, scanStep_no_path s hpath]
      exact ih s hhdr hords htwo hnd hstale
    | true =>
      cases hpci : d.pci with
      | none =>
        have hidf : ¬(identifiesAs filter T d = true) := by
          rw [identifiesAs_iff]; simp [hpci]
        have hdevn : devAddr d = none := by simp [devAddr, hpath, hpci]
        rw [List.countP_cons_of_neg _ _ hidf] at htwo
        rw [List.filterMap_cons_none hdevn] at hnd hstale
        rw [scanLoop_cons, scanStep_no_pci s hpath hpci]
        exact ih s hhdr hords htwo hnd hstale
      | some p =>
        have hdevA : devAddr d = some p := by simp [devAddr, hpath, hpci]
        rw [List.filterMap_cons_some hdevA] at hnd hstale
        have hndtail : (ds.filterMap devAddr).Nodup := (List.nodup_cons.mp hnd).2
        have hpnotin : p ∉ ds.filterMap devAddr := (List.nodup_cons.mp hnd).1
        have hstale_tail : (⟨s.bdFunction, s.bdDevice⟩ : PCIAddr) ∉ ds.filterMap devAddr :=
          fun h => hstale (List.mem_cons_of_mem _ h)
        have hstale_ne : (⟨s.bdFunction, s.bdDevice⟩ : PCIAddr) ≠ p :=
          fun h => hstale (by rw [h]; exact List.mem_cons_self _ _)
        by_cases haddr : s.bdFunction = p.function ∧ s.bdDevice = p.device
        · exfalso
          apply hstale_ne
          obtain ⟨h1, h2⟩ := haddr
          cases p with
          | mk pf pd =>
            simp only [] at h1 h2
            simp [h1, h2]
        · cases hid : identify_storage d filter with
          | none =>
            have hidf : ¬(identifiesAs filter T d = true) := by
              rw [identifiesAs_iff]; simp [hid]
            rw [List.countP_cons_of_neg _ _ hidf] at htwo
            rw [scanLoop_cons, scanStep_no_id s hpath hpci haddr hid]
            exact ih s hhdr hords htwo hndtail hstale_tail
          | some t =>
            have hTle : T.ord ≤ t.ord := by
              have h := hordl d (List.mem_cons_self d ds)
              rw [hid] at h
              exact (ordAtLeast_some T t).mp h
            rw [scanLoop_cons, scanStep_accept s hpath hpci haddr hid (Or.inl hhdr)]
            by_cases hTt : t = T
            · have hidT : identifiesAs filter T d = true := by
                rw [identifiesAs_iff]
                exact ⟨hpath, by simp [hpci], by rw [hid, hTt]⟩
              rw [List.countP_cons_of_pos _ _ hidT] at htwo
              have hone : 0 < ds.countP (identifiesAs filter T) := by omega
              obtain ⟨d0, hd0, hq⟩ := List.countP_pos_iff.mp hone
              obtain ⟨-, hsome0, -⟩ := (identifiesAs_iff filter T d0).mp hq
              obtain ⟨q, hq0⟩ := Option.isSome_iff_exists.mp hsome0
              have hdev0 : devAddr d0 = some q := by
                simp [devAddr, ((identifiesAs_iff filter T d0).mp hq).1, hq0]
              have hqmem : q ∈ ds.filterMap devAddr :=
                List.mem_filterMap.mpr ⟨d0, hd0, hdev0⟩
              have hqp : q ≠ p := fun h => hpnotin (h ▸ hqmem)
              rw [hTt]
              refine scanLoop_ambig_from_accepted filter T ds (acceptDevice s p T)
                (by simp [acceptDevice]) rfl rfl hords ⟨d0, hd0, hq, ?_⟩
              rw [hdev0]
              intro hcontra
              exact hqp (Option.some.inj hcontra)
            · have hTUt : T.ord < t.ord :=
                lt_of_le_of_ne hTle (fun h => hTt (StorageType.ord_inj T t h).symm)
              have hidf : ¬(identifiesAs filter T d = true) := by
                rw [identifiesAs_iff]
                rintro ⟨-, -, hcontra⟩
                rw [hid] at hcontra
                exact hTt (Option.some.inj hcontra)
              rw [List.countP_cons_of_neg _ _ hidf] at htwo
              exact scanLoop_ambig_from_lower filter T ds t (acceptDevice s p t)
                (by simp [acceptDevice]) rfl rfl hTUt hords htwo hndtail hpnotin


/-- C2 (amended): whenever two distinct enumerated PCI devices are
both recognized as the same technology `T`, no enumerated device is
recognized with strictly higher priority than `T`, the enumerated
addresses are pairwise distinct and none equals the stale pre-scan
address, `identify_boot_device` returns `EFI_UNSUPPORTED` — whatever
the enumeration order and whatever lower-priority technologies are
also present — and afterwards no descriptor is selected and the cached
address is the sentinel. -/
theorem identify_duplicate_unsupported (env : Env) (filter : StorageFilter) (T : StorageType)
    (s : BootState)
    (henv : env.locateStatus = .success)
    (hord : ∀ d ∈ env.handles, ordAtLeast T (identify_storage d filter) = true)
    (htwo : 2 ≤ env.handles.countP (identifiesAs filter T))
    (hnd : (env.handles.filterMap devAddr).Nodup)
    (hstale : (⟨s.bdFunction, s.bdDevice⟩ : PCIAddr) ∉ env.handles.filterMap devAddr) :
    ∃ s', identify_boot_device env filter s = (.unsupported, s') ∧
      s'.curStorage = none ∧ s'.bdHeaderType = 0 := by
  obtain ⟨s', hrun, hc, hh⟩ := scanLoop_ambig_from_start filter T env.handles
    { s with curStorage := none, bdHeaderType := 0 } rfl hord htwo hnd hstale
  refine ⟨s', ?_, hc, hh⟩
  simp only [identify_boot_device, henv, EfiStatus.isError, Bool.false_eq_true, if_false]
  rw [hrun]

/-- Witness for C2 (amended): the two distinct SATA controllers alone. -/
theorem identify_duplicate_unsupported_witness :
    ∃ s', identify_boot_device envDup .all initState = (.unsupported, s') ∧
      s'.curStorage = none ∧ s'.bdHeaderType = 0 :=
  identify_duplicate_unsupported envDup .all .sata initState rfl
    (by decide) (by decide) (by decide) (by decide)

end Storage
